import Mathlib

/-!
Shallow embedding of `visualaid.py` (ChrisBuilds/visualaid).

The source renders a rectangular grid of colorable cells onto a live PIL
canvas, snapshots the canvas into an in-memory PNG buffer list
(`Grid.save_frame`), and exports the buffered frames — plus duplicated
"hold" frames — as an animation, overlaying a frame counter
(`Grid.save_animation`, `Animator.save_animation`).

Modelling decisions, mirroring the source:
* A PIL `Image` is a finite pixel grid (`List (List Rgb)`, row major)
  together with a log of text overlays.  PIL's `ImageDraw.text` rasterizes
  text onto pixels; since the text raster is produced by the external
  drawing collaborator and no logic of this repository inspects it, the
  overlay is kept symbolically as `(position, string, color)`, which
  faithfully records exactly what the source hands to `ImageDraw.text`.
* PNG encoding (`Image.save(BytesIO, "PNG")`) is lossless: the byte stream
  is determined by, and determines, the image content.  An encoded frame
  (`EncodedPng`) is therefore modelled by the image content itself; frame
  bytes are equal iff the modelled contents are equal.
* Python integers are `Nat` (all quantities in the source are
  non-negative) except cell coordinates, which may be negative and are
  `Int`.  `int(a / b)` on non-negative integers is floor division and is
  modelled by `Nat` division (`/` on floats is exact here up to double
  rounding, which the spec also ignores).
* The drawing primitives `ImageDraw.rectangle`, `ImageDraw.line` are the
  external drawing collaborator of spec section 6.  `rectangle bbox fill`
  sets every pixel inside the (inclusive) box, clipped to the canvas, which
  is PIL's behaviour.  The exact pixel footprint of a wide `line` is
  internal to PIL; it is modelled as the `width`-pixel band centered on the
  line segment.  No claim depends on the footprint, only on line drawing
  being a deterministic region fill with a fixed color.
-/

namespace Visualaid

/-- An RGB color triple (0-255 each in the source; the bound is irrelevant
to all claims and is not enforced, matching the source, which never
validates it). -/
structure Rgb where
  r : Nat
  g : Nat
  b : Nat
deriving DecidableEq, Repr

/-- A raster image: a row-major pixel grid plus the log of text overlays
(the arguments the source passes to the external `ImageDraw.text`). -/
structure Image where
  pixels : List (List Rgb)
  texts : List ((Int × Int) × String × Rgb)
deriving DecidableEq, Repr

/-- `PIL.Image.new(mode="RGB", size=(w, h), color=c)`. -/
def Image.new (w h : Nat) (c : Rgb) : Image :=
  { pixels := List.replicate h (List.replicate w c), texts := [] }

/-- Map a function over one pixel row, passing the column index. -/
def mapRow (f : Nat → Rgb → Rgb) : Nat → List Rgb → List Rgb
  | _, [] => []
  | x, c :: rest => f x c :: mapRow f (x + 1) rest

/-- Map a function over the whole pixel grid, passing column and row. -/
def mapGrid (f : Nat → Nat → Rgb → Rgb) : Nat → List (List Rgb) → List (List Rgb)
  | _, [] => []
  | y, row :: rest => mapRow (fun x c => f x y c) 0 row :: mapGrid f (y + 1) rest

/-- Set every pixel whose (column, row) satisfies `p` to color `c`
(pixels outside the canvas do not exist, so drawing is clipped to the
canvas exactly as PIL clips). -/
def Image.setRegion (p : Int → Int → Bool) (c : Rgb) (img : Image) : Image :=
  { img with pixels := mapGrid (fun x y old => if p (x : Int) (y : Int) then c else old) 0 img.pixels }

theorem mapRow_congr {f g : Nat → Rgb → Rgb} (h : ∀ x c, f x c = g x c) :
    ∀ (x : Nat) (l : List Rgb), mapRow f x l = mapRow g x l := by
  intro x l
  induction l generalizing x with
  | nil => rfl
  | cons c rest ih => simp [mapRow, h, ih]

theorem mapRow_comp (f g : Nat → Rgb → Rgb) :
    ∀ (x : Nat) (l : List Rgb), mapRow f x (mapRow g x l) = mapRow (fun x c => f x (g x c)) x l := by
  intro x l
  induction l generalizing x with
  | nil => rfl
  | cons c rest ih => simp [mapRow, ih]

theorem mapRow_id : ∀ (x : Nat) (l : List Rgb), mapRow (fun _ c => c) x l = l := by
  intro x l
  induction l generalizing x with
  | nil => rfl
  | cons c rest ih => simp [mapRow, ih]

theorem mapGrid_congr {f g : Nat → Nat → Rgb → Rgb} (h : ∀ x y c, f x y c = g x y c) :
    ∀ (y : Nat) (l : List (List Rgb)), mapGrid f y l = mapGrid g y l := by
  intro y l
  induction l generalizing y with
  | nil => rfl
  | cons row rest ih =>
    simp only [mapGrid]
    rw [mapRow_congr (fun x c => h x y c) 0 row, ih (y + 1)]

theorem mapGrid_comp (f g : Nat → Nat → Rgb → Rgb) :
    ∀ (y : Nat) (l : List (List Rgb)),
      mapGrid f y (mapGrid g y l) = mapGrid (fun x y c => f x y (g x y c)) y l := by
  intro y l
  induction l generalizing y with
  | nil => rfl
  | cons row rest ih =>
    simp only [mapGrid]
    rw [mapRow_comp _ _ 0 row, ih (y + 1)]

theorem mapGrid_id : ∀ (y : Nat) (l : List (List Rgb)), mapGrid (fun _ _ c => c) y l = l := by
  intro y l
  induction l generalizing y with
  | nil => rfl
  | cons row rest ih =>
    simp only [mapGrid]
    rw [mapRow_id 0 row, ih (y + 1)]

theorem setRegion_false (c : Rgb) (img : Image) :
    Image.setRegion (fun _ _ => false) c img = img := by
  unfold Image.setRegion
  rw [show (fun (x y : Nat) (old : Rgb) =>
        if (fun (_ _ : Int) => false) (x : Int) (y : Int) then c else old) =
      (fun (_ _ : Nat) (c : Rgb) => c) by funext x y old; simp]
  rw [mapGrid_id]

theorem setRegion_setRegion_same (p q : Int → Int → Bool) (c : Rgb) (img : Image) :
    Image.setRegion p c (Image.setRegion q c img) =
      Image.setRegion (fun X Y => q X Y || p X Y) c img := by
  unfold Image.setRegion
  simp only [mapGrid_comp]
  congr 1
  apply mapGrid_congr
  intro x y old
  by_cases hp : p (x : Int) (y : Int) = true <;>
    by_cases hq : q (x : Int) (y : Int) = true <;>
    simp [hp, hq]

theorem setRegion_congr {p q : Int → Int → Bool} (h : ∀ X Y, p X Y = q X Y) (c : Rgb)
    (img : Image) : Image.setRegion p c img = Image.setRegion q c img := by
  unfold Image.setRegion
  congr 1
  apply mapGrid_congr
  intro x y old
  rw [h]

theorem foldl_setRegion_any (P : Nat → Int → Int → Bool) (c : Rgb) :
    ∀ (xs : List Nat) (img : Image) (p0 : Int → Int → Bool),
      xs.foldl (fun im x => Image.setRegion (P x) c im) (Image.setRegion p0 c img) =
        Image.setRegion (fun X Y => p0 X Y || xs.any fun x => P x X Y) c img := by
  intro xs
  induction xs with
  | nil =>
    intro img p0
    simp only [List.foldl_nil, List.any_nil]
    exact setRegion_congr (fun X Y => by simp) c img
  | cons x rest ih =>
    intro img p0
    simp only [List.foldl_cons]
    rw [setRegion_setRegion_same, ih]
    apply setRegion_congr
    intro X Y
    simp [Bool.or_assoc]

theorem foldl_setRegion_any' (P : Nat → Int → Int → Bool) (c : Rgb) (xs : List Nat)
    (img : Image) :
    xs.foldl (fun im x => Image.setRegion (P x) c im) img =
      Image.setRegion (fun X Y => xs.any fun x => P x X Y) c img := by
  cases xs with
  | nil =>
    simp only [List.foldl_nil, List.any_nil]
    exact (setRegion_false c img).symm
  | cons x rest =>
    simp only [List.foldl_cons]
    rw [show Image.setRegion (P x) c img =
          Image.setRegion (P x) c (Image.setRegion (fun _ _ => false) c img) by
        rw [setRegion_false]]
    rw [setRegion_setRegion_same, foldl_setRegion_any]
    apply setRegion_congr
    intro X Y
    simp

theorem setRegion_pixels_texts (p : Int → Int → Bool) (c : Rgb) (img : Image) :
    (Image.setRegion p c img).texts = img.texts := rfl

/-- `ImageDraw.Draw(frame).text(position, string, fill=color)` of the
external drawing collaborator: records the overlay (see the header notes —
the raster produced by PIL is determined by these arguments). -/
def Image.drawText (img : Image) (position : Int × Int) (s : String) (color : Rgb) : Image :=
  { img with texts := img.texts ++ [(position, s, color)] }

/-- `ImageDraw.rectangle(bbox, fill)` with `bbox = ((x0, y0), (x1, y1))`:
fills the inclusive box, clipped to the canvas. -/
def Image.drawRectangle (img : Image) (bbox : (Int × Int) × (Int × Int)) (fill : Rgb) : Image :=
  Image.setRegion
    (fun X Y => decide (bbox.1.1 ≤ X) && decide (X ≤ bbox.2.1) &&
      decide (bbox.1.2 ≤ Y) && decide (Y ≤ bbox.2.2)) fill img

/-- `Image.resize(size, Image.NEAREST)` of the external codec collaborator:
non-interpolating resize; destination pixel `(x, y)` samples source pixel
`(x * srcW / dstW, y * srcH / dstH)`.  Text overlays are carried along
unscaled (no claim inspects them after a resize). -/
def Image.resizeNN (img : Image) (size : Nat × Nat) : Image :=
  let srcH := img.pixels.length
  let srcW := (img.pixels.headD []).length
  { img with pixels :=
      (List.range size.2).map fun y =>
        (List.range size.1).map fun x =>
          ((img.pixels.getD (y * srcH / size.2) []).getD (x * srcW / size.1)
            { r := 0, g := 0, b := 0 }) }

/-- Python `range(start, stop, step)` for a positive `step` (the source
only ever uses positive steps). -/
def pyRange (start stop step : Nat) : List Nat :=
  List.range' start ((stop - start + step - 1) / step) step

/-- The `Grid` class: configuration attributes set in `__init__`, the live
canvas `image`, the frame buffer `frames`, and the `holdresult` attribute
(milliseconds to display the final frame before looping, assigned by
callers).  The derived size attributes (`grid_image_width`, …) are set
once in `__init__` from the configuration and never recomputed; since no
operation of the source mutates the configuration, they are modelled as
functions of the configuration fields. -/
structure Grid where
  grid_x : Nat
  grid_y : Nat
  cell_width : Nat
  cell_height : Nat
  _gridlines : Bool
  gridline_width : Nat
  gridline_color : Rgb
  bg_color : Rgb
  _frame_counter_text : Bool
  flip_vertical : Bool
  frame_counter_text_color : Rgb
  holdresult : Nat
  image : Image
  frames : List Image
deriving DecidableEq, Repr

/-- `self.grid_image_height = (self.grid_y * self.cell_height) + ((self._gridlines * (self.grid_y + 1)) * self.gridline_width)`. -/
def Grid.grid_image_height (g : Grid) : Nat :=
  g.grid_y * g.cell_height + (cond g._gridlines (g.grid_y + 1) 0) * g.gridline_width

/-- `self.grid_image_width = (self.grid_x * self.cell_width) + ((self._gridlines * (self.grid_x + 1)) * self.gridline_width)`. -/
def Grid.grid_image_width (g : Grid) : Nat :=
  g.grid_x * g.cell_width + (cond g._gridlines (g.grid_x + 1) 0) * g.gridline_width

/-- `self.frame_counter_text_height = max(15, int(0.025 * self.grid_image_height)) * self._frame_counter_text`.
`int(0.025 * h)` truncates the exact product `h / 40`, modelled as
`h * 25 / 1000` in exact (floor) arithmetic. -/
def Grid.frame_counter_text_height (g : Grid) : Nat :=
  max 15 (g.grid_image_height * 25 / 1000) * cond g._frame_counter_text 1 0

/-- `self.image_width = self.grid_image_width + 0`. -/
def Grid.image_width (g : Grid) : Nat := g.grid_image_width + 0

/-- `self.image_height = self.grid_image_height + self.frame_counter_text_height`. -/
def Grid.image_height (g : Grid) : Nat := g.grid_image_height + g.frame_counter_text_height

/-- `Grid.__init__`: stores the configuration, allocates the blank canvas
`Image.new("RGB", (image_width, image_height), bg_color)`, and starts with
an empty frame list, `holdresult = 0` and black counter text. -/
def Grid.init (grid_x grid_y cell_width cell_height : Nat) (gridlines : Bool)
    (gridline_width : Nat) (gridline_color bg_color : Rgb)
    (frame_counter_text : Bool) (flip_vertical : Bool) : Grid :=
  let gih := grid_y * cell_height + (cond gridlines (grid_y + 1) 0) * gridline_width
  let giw := grid_x * cell_width + (cond gridlines (grid_x + 1) 0) * gridline_width
  let fcth := max 15 (gih * 25 / 1000) * cond frame_counter_text 1 0
  { grid_x := grid_x
    grid_y := grid_y
    cell_width := cell_width
    cell_height := cell_height
    _gridlines := gridlines
    gridline_width := gridline_width
    gridline_color := gridline_color
    bg_color := bg_color
    _frame_counter_text := frame_counter_text
    flip_vertical := flip_vertical
    frame_counter_text_color := { r := 0, g := 0, b := 0 }
    holdresult := 0
    image := Image.new (giw + 0) (gih + fcth) bg_color
    frames := [] }

/-- Pixel footprint of the vertical gridline `self.draw.line(((x, 0), (x, grid_image_height - 1)), width=gridline_width, ...)`:
the `width`-pixel column band centered on column `x`, spanning the grid
rows (see the header notes on the external `line` primitive). -/
def Grid.vLinePred (g : Grid) (x : Nat) (X Y : Int) : Bool :=
  let left : Int := (x : Int) - ((g.gridline_width - 1) / 2 : Nat)
  decide (left ≤ X) && decide (X < left + (g.gridline_width : Int)) &&
    decide (0 ≤ Y) && decide (Y ≤ (g.grid_image_height : Int) - 1)

/-- Pixel footprint of the horizontal gridline `self.draw.line(((0, y), (grid_image_width - 1, y)), width=gridline_width, ...)`. -/
def Grid.hLinePred (g : Grid) (y : Nat) (X Y : Int) : Bool :=
  let top : Int := (y : Int) - ((g.gridline_width - 1) / 2 : Nat)
  decide (top ≤ Y) && decide (Y < top + (g.gridline_width : Int)) &&
    decide (0 ≤ X) && decide (X ≤ (g.grid_image_width : Int) - 1)

/-- `gridline_width_expansion` of `Grid._draw_gridlines`:
`ceil(gridline_width / 2) - 1` when `gridline_width ≥ 3`, else `0`. -/
def Grid.gridline_width_expansion (g : Grid) : Nat :=
  if 3 ≤ g.gridline_width then (g.gridline_width + 1) / 2 - 1 else 0

/-- The x positions of the vertical gridlines:
`range(0 + expansion, grid_image_width + 1, cell_width + gridline_width)`. -/
def Grid.vLineXs (g : Grid) : List Nat :=
  pyRange g.gridline_width_expansion (g.grid_image_width + 1) (g.cell_width + g.gridline_width)

/-- The y positions of the horizontal gridlines:
`range(0 + expansion, grid_image_height + 1, cell_height + gridline_width)`. -/
def Grid.hLineYs (g : Grid) : List Nat :=
  pyRange g.gridline_width_expansion (g.grid_image_height + 1) (g.cell_height + g.gridline_width)

/-- `Grid._draw_gridlines` acting on an image: draw each vertical line,
then each horizontal line, all with `gridline_color`. -/
def Grid.drawGridlinesImg (g : Grid) (img : Image) : Image :=
  let i1 := g.vLineXs.foldl (fun im x => Image.setRegion (g.vLinePred x) g.gridline_color im) img
  g.hLineYs.foldl (fun im y => Image.setRegion (g.hLinePred y) g.gridline_color im) i1

/-- `Grid._draw_gridlines`: mutates `self.image`. -/
def Grid._draw_gridlines (g : Grid) : Grid :=
  { g with image := g.drawGridlinesImg g.image }

/-- The combined pixel region covered by all gridlines (all drawn in the
single color `gridline_color`, so the successive line draws amount to one
region fill — proved below). -/
def Grid.gridlinesPred (g : Grid) (X Y : Int) : Bool :=
  (g.vLineXs.any fun x => g.vLinePred x X Y) || (g.hLineYs.any fun y => g.hLinePred y X Y)

/-- `Grid._draw_image` acting on an image: draw the gridlines iff they are
enabled. -/
def Grid.drawImage (g : Grid) (img : Image) : Image :=
  if g._gridlines then g.drawGridlinesImg img else img

/-- `Grid._draw_image`: `if self._gridlines: self._draw_gridlines()`. -/
def Grid._draw_image (g : Grid) : Grid :=
  { g with image := g.drawImage g.image }

/-- `Grid._create_bytesio_object(image_obj)`: encode the image to PNG
bytes in a fresh in-memory buffer.  PNG is lossless, so the byte stream is
modelled by the image content that determines it (header notes). -/
def Grid._create_bytesio_object (_g : Grid) (image_obj : Image) : Image :=
  { pixels := image_obj.pixels, texts := image_obj.texts }

/-- `Grid.save_frame`: `self._draw_image(); self.frames.append(self._create_bytesio_object(self.image))`. -/
def Grid.save_frame (g : Grid) : Grid :=
  let gd := g._draw_image
  { gd with frames := gd.frames ++ [gd._create_bytesio_object gd.image] }

/-- The pixel bounding box computed by `Grid.fill_cell` for a coordinate:
`y = (grid_y - 1) - abs(y)` under `flip_vertical`, then
`gridspace = _gridlines * gridline_width`,
`x0 = x*cell_width + x*gridspace + gridspace`,
`y0 = y*cell_height + y*gridspace + gridspace`,
`x1 = x0 + cell_width - 1`, `y1 = y0 + cell_height - 1`. -/
def Grid.fill_cell_bbox (g : Grid) (coord : Int × Int) : (Int × Int) × (Int × Int) :=
  let x := coord.1
  let y : Int := if g.flip_vertical then ((g.grid_y : Int) - 1) - |coord.2| else coord.2
  let gridspace : Nat := (cond g._gridlines 1 0) * g.gridline_width
  let x0 : Int := x * (g.cell_width : Int) + x * (gridspace : Int) + (gridspace : Int)
  let y0 : Int := y * (g.cell_height : Int) + y * (gridspace : Int) + (gridspace : Int)
  ((x0, y0), (x0 + (g.cell_width : Int) - 1, y0 + (g.cell_height : Int) - 1))

/-- `Grid.fill_cell(coord, fill)`: computes the bounding box and draws the
filled rectangle on the live canvas. -/
def Grid.fill_cell (g : Grid) (coord : Int × Int) (fill : Rgb) : Grid :=
  { g with image := g.image.drawRectangle (g.fill_cell_bbox coord) fill }

/-- `Grid._draw_frame_counter_text(frame, text, frame_pos, total_fames)`:
writes `f"{text} {frame_pos} / {total_fames}"` at
`(3, grid_image_height + 3)` in `frame_counter_text_color` and returns the
frame. -/
def Grid._draw_frame_counter_text (g : Grid) (frame : Image) (text : String)
    (frame_pos total_fames : Nat) : Image :=
  frame.drawText ((3 : Int), (g.grid_image_height : Int) + 3)
    (text ++ " " ++ toString frame_pos ++ " / " ++ toString total_fames)
    g.frame_counter_text_color

/-- `PIL.Image.open` on an in-memory PNG buffer: decode (lossless — see
the header notes). -/
def decodePNG (f : Image) : Image := { pixels := f.pixels, texts := f.texts }

/-- One loop iteration of `Grid._frames_gen` (and of the identical inner
loop of `Animator._frames_gen`): decode the frame and, if the counter is
enabled, overlay the counter text, with `frame_pos` clamped to
`total_frames - holdframe_count` for hold frames. -/
def Grid.processFrame (g : Grid) (holdframe_count total_frames processed_frames : Nat)
    (frame : Image) : Image :=
  let frame_image := decodePNG frame
  if g._frame_counter_text then
    let frame_pos :=
      if processed_frames ≤ total_frames - holdframe_count then processed_frames
      else total_frames - holdframe_count
    g._draw_frame_counter_text frame_image "Frame: " frame_pos (total_frames - holdframe_count)
  else frame_image

/-- The loop of `Grid._frames_gen` over the frame list, threading the
`processed_frames` counter (which starts at 1). -/
def Grid.framesGenAux (g : Grid) (holdframe_count total_frames : Nat) :
    Nat → List Image → List Image
  | _, [] => []
  | processed_frames, frame :: rest =>
    g.processFrame holdframe_count total_frames processed_frames frame ::
      g.framesGenAux holdframe_count total_frames (processed_frames + 1) rest

/-- `Grid._frames_gen(holdframe_count)`: the finite sequence of decoded,
counter-annotated frames the generator yields (the encoder consumes it in
full). -/
def Grid._frames_gen (g : Grid) (holdframe_count : Nat) : List Image :=
  g.framesGenAux holdframe_count g.frames.length 1 g.frames

/-- The hold-frame count of `Grid.save_animation`:
`hold_duration = 1 if duration == 0 else duration;
holdframe_count = int(self.holdresult / hold_duration)`. -/
def Grid.holdframeCount (holdresult duration : Nat) : Nat :=
  let hold_duration := if duration = 0 then 1 else duration
  holdresult / hold_duration

/-- `Grid.save_animation(filename, loop, duration)`: appends
`holdframe_count` hold frames via `save_frame`, then streams
`_frames_gen` to the encoder (`filename` and `loop` are passed through to
the external encoder and do not affect the frame sequence; they are
omitted).  Returns the mutated grid and the exported frame sequence;
`none` models the `StopIteration` raised by `next(frame_gen)` when there
is no frame to export. -/
def Grid.save_animation (g : Grid) (duration : Nat) : Option (Grid × List Image) :=
  if ((Grid.save_frame^[Grid.holdframeCount g.holdresult duration] g)._frames_gen
        (Grid.holdframeCount g.holdresult duration)).isEmpty then none
  else some (Grid.save_frame^[Grid.holdframeCount g.holdresult duration] g,
    (Grid.save_frame^[Grid.holdframeCount g.holdresult duration] g)._frames_gen
      (Grid.holdframeCount g.holdresult duration))

/-- The `Animator` class.  `hold_duration` and `frame_counter_text` are set
in `__init__` and never read again; `resize` is assigned in
`save_animation` before the generator is created. -/
structure Animator where
  hold_duration : Nat := 0
  frame_counter_text : Bool := false
  resize : Option (Nat × Nat) := none
deriving DecidableEq, Repr

/-- Apply `f` to the last element of a list (`visuals[-1]` mutation in the
source; the source raises IndexError on an empty list, which no caller of
the modelled paths reaches — see `Animator.save_animation`). -/
def updateLast (f : Grid → Grid) : List Grid → List Grid
  | [] => []
  | [v] => [f v]
  | v :: rest => v :: updateLast f rest

/-- The per-visual hold expansion of `Animator._frames_gen`, run only when
the global `holdframe_count` is zero:
`if visual.holdresult: visual_holdframe_count = int(visual.holdresult / duration); for _ in range(visual_holdframe_count): visual.save_frame()`. -/
def Animator.expandPerVisual (duration : Nat) (visuals : List Grid) : List Grid :=
  visuals.map fun visual =>
    if visual.holdresult ≠ 0 then Grid.save_frame^[visual.holdresult / duration] visual
    else visual

/-- One frame of the emission loop of `Animator._frames_gen`: identical to
`Grid.processFrame` (the source repeats the same code), followed by the
optional nearest-neighbor resize. -/
def Animator.processFrame (resize : Option (Nat × Nat)) (visual : Grid)
    (holdframe_count total_frames processed_frames : Nat) (frame : Image) : Image :=
  let frame_image := visual.processFrame holdframe_count total_frames processed_frames frame
  match resize with
  | some size => frame_image.resizeNN size
  | none => frame_image

/-- The inner loop of `Animator._frames_gen` over one visual's frames,
threading the global `processed_frames` counter. -/
def Animator.emitVisual (resize : Option (Nat × Nat)) (visual : Grid)
    (holdframe_count total_frames : Nat) : Nat → List Image → List Image
  | _, [] => []
  | processed_frames, frame :: rest =>
    Animator.processFrame resize visual holdframe_count total_frames processed_frames frame ::
      Animator.emitVisual resize visual holdframe_count total_frames (processed_frames + 1) rest

/-- The outer emission loop of `Animator._frames_gen`: visuals in list
order, frames in buffer order, one running `processed_frames` counter
across all visuals. -/
def Animator.emitAll (resize : Option (Nat × Nat)) (holdframe_count total_frames : Nat) :
    Nat → List Grid → List Image
  | _, [] => []
  | processed_frames, visual :: rest =>
    Animator.emitVisual resize visual holdframe_count total_frames processed_frames
        visual.frames ++
      Animator.emitAll resize holdframe_count total_frames
        (processed_frames + visual.frames.length) rest

/-- The hold-expansion phase of `Animator._frames_gen`: if the global
`holdframe_count` is non-zero, append that many hold frames to the last
visual (per-visual hold durations are then never consulted); otherwise
expand each visual's own hold duration. -/
def Animator.expandVisuals (duration holdframe_count : Nat) (visuals : List Grid) : List Grid :=
  if holdframe_count ≠ 0 then updateLast (Grid.save_frame^[holdframe_count]) visuals
  else Animator.expandPerVisual duration visuals

/-- `Animator._frames_gen(visuals, duration, holdframe_count)`: run the
hold expansion, compute `total_frames` as the sum of the (expanded) buffer
lengths, and emit every frame with the global `processed_frames` counter
starting at 1.  Returns the mutated visuals and the emitted frame
sequence. -/
def Animator._frames_gen (a : Animator) (visuals : List Grid) (duration holdframe_count : Nat) :
    List Grid × List Image :=
  (Animator.expandVisuals duration holdframe_count visuals,
    Animator.emitAll a.resize holdframe_count
      ((Animator.expandVisuals duration holdframe_count visuals).map fun visual =>
        visual.frames.length).sum
      1 (Animator.expandVisuals duration holdframe_count visuals))

/-- The global hold-frame count of `Animator.save_animation`:
`holdframe_count = int(holdresult / duration)` — with NO defensive
normalization of a zero `duration`; `none` models the ZeroDivisionError
Python raises when `duration == 0`. -/
def Animator.holdframeCount (holdresult duration : Nat) : Option Nat :=
  if duration = 0 then none else some (holdresult / duration)

/-- `Animator.save_animation(visuals, filename, loop, duration, holdresult, resize)`:
stores `resize`, computes the global hold-frame count (raising on a zero
`duration`, modelled by `none`), and streams `_frames_gen` to the encoder
(`filename` and `loop` are passed through to the external encoder and do
not affect the frame sequence; they are omitted).  `none` also models the
`StopIteration` raised by `next(frame_gen)` when no frame is produced
(the visuals have already been mutated by then, as in the source). -/
def Animator.save_animation (a : Animator) (visuals : List Grid) (duration holdresult : Nat)
    (resize : Option (Nat × Nat)) : Option (List Grid × List Image) :=
  match Animator.holdframeCount holdresult duration with
  | none => none
  | some holdframe_count =>
    if (({ a with resize := resize } : Animator)._frames_gen visuals duration
          holdframe_count).2.isEmpty then none
    else some (({ a with resize := resize } : Animator)._frames_gen visuals duration
      holdframe_count)

/-! ### Spec-side definitions

These follow the WORDS of the specification (sections 4.1 and the claims),
to be compared with the definitions translated from the source. -/

/-- Modelled from the spec (§4.1): `cell_bbox(column, row, config)`.
`gutter = gridlines_enabled ? gridline_width : 0`;
if `vertical_flip`, the row is first transformed to `(cell_rows - 1) - |row|`;
`x0 = column*cell_width + column*gutter + gutter`,
`y0 = row*cell_height + row*gutter + gutter`,
`x1 = x0 + cell_width - 1`, `y1 = y0 + cell_height - 1`. -/
def spec_cell_bbox (column row : Int) (cell_width cell_height : Nat)
    (gridlines_enabled : Bool) (gridline_width : Nat) (cell_rows : Nat)
    (vertical_flip : Bool) : (Int × Int) × (Int × Int) :=
  let gutter : Int := if gridlines_enabled then (gridline_width : Int) else 0
  let row : Int := if vertical_flip then ((cell_rows : Int) - 1) - |row| else row
  let x0 : Int := column * (cell_width : Int) + column * gutter + gutter
  let y0 : Int := row * (cell_height : Int) + row * gutter + gutter
  ((x0, y0), (x0 + (cell_width : Int) - 1, y0 + (cell_height : Int) - 1))

/-- Modelled from the spec (§4.1):
`grid_w = cell_columns*cell_width + gridlines_enabled*(cell_columns+1)*gridline_width`
(and symmetrically for the height). -/
def spec_grid_dim (cells cell_size : Nat) (gridlines_enabled : Bool)
    (gridline_width : Nat) : Nat :=
  cells * cell_size + (if gridlines_enabled then (cells + 1) * gridline_width else 0)

/-- Modelled from the spec (§4.1, claim C7):
`counter band height = counter_enabled ? max(15, round(0.025*grid_h)) : 0`,
with `round` meaning round-to-nearest (half up; the counterexample below
does not involve a tie, so the tie-breaking policy is irrelevant). -/
def spec_counter_band_round (counter_enabled : Bool) (grid_h : Nat) : Nat :=
  if counter_enabled then max 15 ((grid_h * 25 + 500) / 1000) else 0

/-- `spec_counter_band_round` with the rounding replaced by truncation
(floor), which is what `int(0.025 * h)` in the source computes — the
amendment the counterexample forces. -/
def spec_counter_band_trunc (counter_enabled : Bool) (grid_h : Nat) : Nat :=
  if counter_enabled then max 15 (grid_h * 25 / 1000) else 0

/-- Modelled from the spec (§4.1, claim C7):
`total canvas = (grid_w, grid_h + counter_band)` with the rounded band. -/
def spec_canvas_size_round (cell_columns cell_rows cell_width cell_height : Nat)
    (gridlines_enabled : Bool) (gridline_width : Nat) (counter_enabled : Bool) : Nat × Nat :=
  let grid_w := spec_grid_dim cell_columns cell_width gridlines_enabled gridline_width
  let grid_h := spec_grid_dim cell_rows cell_height gridlines_enabled gridline_width
  (grid_w, grid_h + spec_counter_band_round counter_enabled grid_h)

/-- The canvas-size formula of claim C7 amended to truncation. -/
def spec_canvas_size_trunc (cell_columns cell_rows cell_width cell_height : Nat)
    (gridlines_enabled : Bool) (gridline_width : Nat) (counter_enabled : Bool) : Nat × Nat :=
  let grid_w := spec_grid_dim cell_columns cell_width gridlines_enabled gridline_width
  let grid_h := spec_grid_dim cell_rows cell_height gridlines_enabled gridline_width
  (grid_w, grid_h + spec_counter_band_trunc counter_enabled grid_h)

/-! ### Concrete fixtures for witnesses and counterexamples -/

/-- Fallback image for `List.getD` (never selected under the stated
bounds). -/
def dummyImage : Image := { pixels := [], texts := [] }

/-- A minimal 1×1-cell visual with the frame counter enabled. -/
def wGrid : Grid :=
  Grid.init 1 1 1 1 false 1 { r := 0, g := 0, b := 0 } { r := 255, g := 255, b := 255 }
    true false

/-- `wGrid` with one buffered frame and `holdresult = 200`. -/
def wGridHold : Grid := { wGrid.save_frame with holdresult := 200 }

/-- A minimal visual with the counter disabled, one buffered frame, and
`holdresult = 100` (its own per-visual hold). -/
def wGridOwnHold : Grid :=
  { (Grid.init 1 1 1 1 false 1 { r := 0, g := 0, b := 0 } { r := 255, g := 255, b := 255 }
      false false).save_frame with holdresult := 100 }

/-- A counter-enabled visual with three buffered frames. -/
def wGrid3 : Grid := ((wGrid.save_frame).save_frame).save_frame

/-- A counter-enabled visual with two buffered frames. -/
def wGrid2 : Grid := (wGrid.save_frame).save_frame

/-- A default animator. -/
def wAnimator : Animator := {}

/-- The grid configuration of the C7 counterexample: one 10×783 cell, no
gridlines, counter enabled, so the exact counter-band product is
`0.025 * 783 = 19.575`, which truncates to 19 but rounds to 20. -/
def wGrid783 : Grid :=
  Grid.init 1 1 10 783 false 1 { r := 0, g := 0, b := 0 } { r := 255, g := 255, b := 255 }
    true false

/-! ### Helper lemmas -/

theorem drawGridlinesImg_eq (g : Grid) (img : Image) :
    g.drawGridlinesImg img = Image.setRegion g.gridlinesPred g.gridline_color img := by
  unfold Grid.drawGridlinesImg
  rw [foldl_setRegion_any' (fun x => g.vLinePred x) g.gridline_color g.vLineXs img]
  rw [foldl_setRegion_any (fun y => g.hLinePred y) g.gridline_color g.hLineYs img]
  rfl

theorem drawGridlinesImg_idem (g : Grid) (img : Image) :
    g.drawGridlinesImg (g.drawGridlinesImg img) = g.drawGridlinesImg img := by
  rw [drawGridlinesImg_eq, drawGridlinesImg_eq, setRegion_setRegion_same]
  exact setRegion_congr (fun X Y => Bool.or_self _) _ _

theorem drawImage_idem (g : Grid) (img : Image) :
    g.drawImage (g.drawImage img) = g.drawImage img := by
  unfold Grid.drawImage
  by_cases h : g._gridlines <;> simp [h, drawGridlinesImg_idem]

/-- `save_frame` written as a single record update: it redraws the
gridlines on the live canvas and appends the (losslessly encoded) canvas
content to the frame list; nothing else changes. -/
theorem save_frame_eq (g : Grid) :
    g.save_frame =
      { g with image := g.drawImage g.image,
               frames := g.frames ++ [g.drawImage g.image] } := rfl

/-- A configuration projection of a record update is unchanged; `drawImage`
reads only configuration fields, so it is unchanged too. -/
theorem drawImage_update (g : Grid) (img0 : Image) (fs : List Image) (img : Image) :
    ({ g with image := img0, frames := fs } : Grid).drawImage img = g.drawImage img := rfl

/-- `k` iterated `save_frame` calls, as one record update: the first call
draws the gridlines and every call appends the identical encoded snapshot
of the (drawn) live canvas. -/
theorem save_frame_iterate (g : Grid) :
    ∀ k, Grid.save_frame^[k] g =
      { g with image := if k = 0 then g.image else g.drawImage g.image,
               frames := g.frames ++ List.replicate k (g.drawImage g.image) } := by
  intro k
  induction k with
  | zero => simp
  | succ k ih =>
    rw [Function.iterate_succ_apply', ih, save_frame_eq]
    cases k with
    | zero => simp
    | succ j =>
      simp only [Nat.succ_ne_zero, if_false, drawImage_update, drawImage_idem,
        List.append_assoc]
      rw [← List.replicate_succ' (j + 1) (g.drawImage g.image)]

theorem save_frame_iterate_frames (g : Grid) (k : Nat) :
    (Grid.save_frame^[k] g).frames = g.frames ++ List.replicate k (g.drawImage g.image) := by
  rw [save_frame_iterate]

theorem save_frame_iterate_length (g : Grid) (k : Nat) :
    (Grid.save_frame^[k] g).frames.length = g.frames.length + k := by
  rw [save_frame_iterate_frames]
  simp

theorem replicate_getD {k j : Nat} (a d : Image) (h : j < k) :
    (List.replicate k a).getD j d = a := by
  induction k generalizing j with
  | zero => omega
  | succ k ih =>
    cases j with
    | zero => rfl
    | succ j =>
      rw [List.replicate_succ]
      simpa using ih (by omega)

theorem framesGenAux_length (g : Grid) (hold total : Nat) :
    ∀ (fs : List Image) (p : Nat), (g.framesGenAux hold total p fs).length = fs.length := by
  intro fs
  induction fs with
  | nil => intro p; rfl
  | cons f rest ih =>
    intro p
    simp only [Grid.framesGenAux, List.length_cons, ih]

theorem framesGenAux_getD (g : Grid) (hold total : Nat) :
    ∀ (fs : List Image) (p i : Nat), i < fs.length →
      (g.framesGenAux hold total p fs).getD i dummyImage =
        g.processFrame hold total (p + i) (fs.getD i dummyImage) := by
  intro fs
  induction fs with
  | nil => intro p i h; simp at h
  | cons f rest ih =>
    intro p i h
    cases i with
    | zero => rfl
    | succ i =>
      simp only [Grid.framesGenAux, List.getD_cons_succ]
      rw [ih (p + 1) i (by simpa using h)]
      congr 1
      omega

theorem emitVisual_length (r : Option (Nat × Nat)) (v : Grid) (hold total : Nat) :
    ∀ (fs : List Image) (p : Nat),
      (Animator.emitVisual r v hold total p fs).length = fs.length := by
  intro fs
  induction fs with
  | nil => intro p; rfl
  | cons f rest ih =>
    intro p
    simp only [Animator.emitVisual, List.length_cons, ih]

theorem emitVisual_getD (r : Option (Nat × Nat)) (v : Grid) (hold total : Nat) :
    ∀ (fs : List Image) (p i : Nat), i < fs.length →
      (Animator.emitVisual r v hold total p fs).getD i dummyImage =
        Animator.processFrame r v hold total (p + i) (fs.getD i dummyImage) := by
  intro fs
  induction fs with
  | nil => intro p i h; simp at h
  | cons f rest ih =>
    intro p i h
    cases i with
    | zero => rfl
    | succ i =>
      simp only [Animator.emitVisual, List.getD_cons_succ]
      rw [ih (p + 1) i (by simpa using h)]
      congr 1
      omega

theorem emitAll_length (r : Option (Nat × Nat)) (hold total : Nat) :
    ∀ (vs : List Grid) (p : Nat),
      (Animator.emitAll r hold total p vs).length =
        (vs.map fun v => v.frames.length).sum := by
  intro vs
  induction vs with
  | nil => intro p; rfl
  | cons v rest ih =>
    intro p
    simp only [Animator.emitAll, List.length_append, emitVisual_length, List.map_cons,
      List.sum_cons, ih]

theorem emitAll_getD (r : Option (Nat × Nat)) (hold total : Nat) :
    ∀ (vs : List Grid) (p i : Nat), i < (vs.map fun v => v.frames.length).sum →
      ∃ v, v ∈ vs ∧
        (Animator.emitAll r hold total p vs).getD i dummyImage =
          Animator.processFrame r v hold total (p + i)
            (((vs.map Grid.frames).flatten).getD i dummyImage) := by
  intro vs
  induction vs with
  | nil => intro p i h; simp at h
  | cons v rest ih =>
    intro p i h
    simp only [List.map_cons, List.sum_cons] at h
    by_cases hi : i < v.frames.length
    · refine ⟨v, List.mem_cons_self _ _, ?_⟩
      rw [List.map_cons, List.flatten_cons]
      rw [show (Animator.emitAll r hold total p (v :: rest)) =
            Animator.emitVisual r v hold total p v.frames ++
              Animator.emitAll r hold total (p + v.frames.length) rest from rfl]
      rw [List.getD_append _ _ _ _ (by rw [emitVisual_length]; exact hi),
        List.getD_append _ _ _ _ hi, emitVisual_getD r v hold total v.frames p i hi]
    · have hlen : v.frames.length ≤ i := Nat.le_of_not_lt hi
      obtain ⟨w, hw, hval⟩ :=
        ih (p + v.frames.length) (i - v.frames.length) (by omega)
      refine ⟨w, List.mem_cons_of_mem _ hw, ?_⟩
      rw [List.map_cons, List.flatten_cons]
      rw [show (Animator.emitAll r hold total p (v :: rest)) =
            Animator.emitVisual r v hold total p v.frames ++
              Animator.emitAll r hold total (p + v.frames.length) rest from rfl]
      rw [List.getD_append_right _ _ _ _ (by rw [emitVisual_length]; exact hlen),
        List.getD_append_right _ _ _ _ hlen, emitVisual_length, hval]
      congr 1
      omega

theorem save_frame_iterate_flag (g : Grid) (k : Nat) :
    (Grid.save_frame^[k] g)._frame_counter_text = g._frame_counter_text := by
  rw [save_frame_iterate]

theorem save_frame_iterate_holdresult (g : Grid) (k : Nat) :
    (Grid.save_frame^[k] g).holdresult = g.holdresult := by
  rw [save_frame_iterate]

theorem save_frame_iterate_height (g : Grid) (k : Nat) :
    (Grid.save_frame^[k] g).grid_image_height = g.grid_image_height := by
  rw [save_frame_iterate]; rfl

theorem save_frame_iterate_color (g : Grid) (k : Nat) :
    (Grid.save_frame^[k] g).frame_counter_text_color = g.frame_counter_text_color := by
  rw [save_frame_iterate]

theorem holdframeCount_pos (holdresult duration : Nat) (hD : duration ≠ 0) :
    Grid.holdframeCount holdresult duration = holdresult / duration := by
  simp [Grid.holdframeCount, hD]

/-- `Grid.save_animation` on a non-trivially-empty export: the grid is
mutated by the iterated hold-frame `save_frame` calls and the generator
output is returned in full. -/
theorem grid_save_animation_some (g : Grid) (duration : Nat)
    (hne : g.frames.length + Grid.holdframeCount g.holdresult duration ≠ 0) :
    g.save_animation duration =
      some (Grid.save_frame^[Grid.holdframeCount g.holdresult duration] g,
        (Grid.save_frame^[Grid.holdframeCount g.holdresult duration] g)._frames_gen
          (Grid.holdframeCount g.holdresult duration)) := by
  unfold Grid.save_animation
  have hlen : ((Grid.save_frame^[Grid.holdframeCount g.holdresult duration] g)._frames_gen
      (Grid.holdframeCount g.holdresult duration)).length =
        g.frames.length + Grid.holdframeCount g.holdresult duration := by
    unfold Grid._frames_gen
    rw [framesGenAux_length, save_frame_iterate_length]
  have hfalse : ((Grid.save_frame^[Grid.holdframeCount g.holdresult duration] g)._frames_gen
      (Grid.holdframeCount g.holdresult duration)).isEmpty = false := by
    rw [List.isEmpty_eq_false]
    intro hnil
    rw [hnil] at hlen
    simp at hlen
    omega
  rw [hfalse]
  rfl

theorem updateLast_sum (k : Nat) :
    ∀ (vs : List Grid), vs ≠ [] →
      ((updateLast (Grid.save_frame^[k]) vs).map fun v => v.frames.length).sum =
        ((vs.map fun v => v.frames.length).sum) + k := by
  intro vs
  induction vs with
  | nil => intro h; exact absurd rfl h
  | cons v rest ih =>
    intro _
    cases rest with
    | nil => simp [updateLast, save_frame_iterate_length]
    | cons w tail =>
      have : updateLast (Grid.save_frame^[k]) (v :: w :: tail) =
          v :: updateLast (Grid.save_frame^[k]) (w :: tail) := rfl
      rw [this]
      simp only [List.map_cons, List.sum_cons, ih (List.cons_ne_nil w tail)]
      omega

theorem expandPerVisual_sum_le (duration : Nat) :
    ∀ vs : List Grid,
      (vs.map fun v => v.frames.length).sum ≤
        ((Animator.expandPerVisual duration vs).map fun v => v.frames.length).sum := by
  intro vs
  induction vs with
  | nil => simp [Animator.expandPerVisual]
  | cons v rest ih =>
    simp only [Animator.expandPerVisual, List.map_cons, List.sum_cons] at *
    have hv : v.frames.length ≤
        (if v.holdresult ≠ 0 then Grid.save_frame^[v.holdresult / duration] v
          else v).frames.length := by
      by_cases h : v.holdresult ≠ 0 <;> simp [h, save_frame_iterate_length]
    omega

theorem expandPerVisual_eq_self (duration : Nat) (vs : List Grid)
    (h : ∀ v ∈ vs, v.holdresult / duration = 0) :
    Animator.expandPerVisual duration vs = vs := by
  unfold Animator.expandPerVisual
  have := List.map_congr_left (l := vs)
    (f := fun visual => if visual.holdresult ≠ 0
      then Grid.save_frame^[visual.holdresult / duration] visual else visual)
    (g := id)
    (by
      intro v hv
      by_cases hh : v.holdresult ≠ 0
      · simp [hh, h v hv]
      · simp [hh])
  rw [this, List.map_id]

theorem expandPerVisual_flag (duration : Nat) (vs : List Grid)
    (h : ∀ v ∈ vs, v._frame_counter_text = true) :
    ∀ v ∈ Animator.expandPerVisual duration vs, v._frame_counter_text = true := by
  intro v hv
  unfold Animator.expandPerVisual at hv
  obtain ⟨w, hw, rfl⟩ := List.mem_map.mp hv
  by_cases hh : w.holdresult ≠ 0
  · rw [if_pos hh, save_frame_iterate_flag]
    exact h w hw
  · rw [if_neg hh]
    exact h w hw

/-- `Animator.save_animation` on a positive duration and a non-empty total:
the expanded visuals are returned together with the emitted sequence. -/
theorem animator_save_animation_some (a : Animator) (visuals : List Grid)
    (duration holdresult : Nat) (r : Option (Nat × Nat)) (hD : duration ≠ 0)
    (hne : ((Animator.expandVisuals duration (holdresult / duration) visuals).map
      fun v => v.frames.length).sum ≠ 0) :
    a.save_animation visuals duration holdresult r =
      some (Animator.expandVisuals duration (holdresult / duration) visuals,
        Animator.emitAll r (holdresult / duration)
          ((Animator.expandVisuals duration (holdresult / duration) visuals).map
            fun v => v.frames.length).sum
          1 (Animator.expandVisuals duration (holdresult / duration) visuals)) := by
  unfold Animator.save_animation Animator.holdframeCount
  rw [if_neg hD]
  have hfalse : (({ a with resize := r } : Animator)._frames_gen visuals duration
      (holdresult / duration)).2.isEmpty = false := by
    rw [List.isEmpty_eq_false]
    unfold Animator._frames_gen
    intro hnil
    simp only at hnil
    have := emitAll_length r (holdresult / duration)
      ((Animator.expandVisuals duration (holdresult / duration) visuals).map
        fun v => v.frames.length).sum
      (Animator.expandVisuals duration (holdresult / duration) visuals) 1
    rw [hnil] at this
    simp at this
    exact hne this.symm
  simp only [hfalse]
  rfl

/-! ### Claim theorems -/

/-- C1 (confirmed): after appending `N` snapshots via `save_frame`, any
subsequent mutation of the live canvas through `fill_cell` (any coordinate,
any color) leaves the whole frame list — in particular the bytes of each of
the `N` previously appended frames — unchanged, and each of the `N`
appends stored the independent encoded copy produced by
`_create_bytesio_object` from the (gridline-redrawn) live canvas at
snapshot time, never a reference to the live canvas. -/
theorem c1_snapshot_isolation (g : Grid) (N : Nat) (coord : Int × Int) (fill : Rgb) :
    ((Grid.save_frame^[N] g).fill_cell coord fill).frames = (Grid.save_frame^[N] g).frames ∧
    (Grid.save_frame^[N] g).frames =
      g.frames ++ List.replicate N
        ((g._draw_image)._create_bytesio_object (g._draw_image).image) := by
  constructor
  · rfl
  · rw [save_frame_iterate_frames]
    rfl

/-- C6 (confirmed): the pixel bounding box `fill_cell` computes (and draws
through) satisfies the spec formula: with
`gutter = gridlines_enabled ? gridline_width : 0`,
`x0 = column*cell_width + column*gutter + gutter`,
`y0 = row*cell_height + row*gutter + gutter`, `x1 = x0 + cell_width - 1`,
`y1 = y0 + cell_height - 1`, where under `vertical_flip` the row is first
replaced by `(cell_rows - 1) - |row|`. -/
theorem c6_fill_cell_bbox (g : Grid) (coord : Int × Int) (fill : Rgb) :
    g.fill_cell_bbox coord =
      spec_cell_bbox coord.1 coord.2 g.cell_width g.cell_height g._gridlines
        g.gridline_width g.grid_y g.flip_vertical ∧
    (g.fill_cell coord fill).image =
      g.image.drawRectangle
        (spec_cell_bbox coord.1 coord.2 g.cell_width g.cell_height g._gridlines
          g.gridline_width g.grid_y g.flip_vertical) fill := by
  have hbb : g.fill_cell_bbox coord =
      spec_cell_bbox coord.1 coord.2 g.cell_width g.cell_height g._gridlines
        g.gridline_width g.grid_y g.flip_vertical := by
    unfold Grid.fill_cell_bbox spec_cell_bbox
    cases hgl : g._gridlines <;> cases hfv : g.flip_vertical <;> simp
  refine ⟨hbb, ?_⟩
  unfold Grid.fill_cell
  rw [hbb]

/-- C7 counterexample: a grid with one 10×783 cell, no gridlines and the
counter enabled has grid pixel height 783, so the claimed counter band is
`max(15, round(0.025 * 783)) = max(15, round(19.575)) = 20`, but the code
computes `max(15, int(19.575)) = 19`: the canvas size differs from the
claimed formula. -/
theorem c7_counterexample :
    (wGrid783.image_width, wGrid783.image_height) ≠
      spec_canvas_size_round 1 1 10 783 false 1 true := by
  decide

/-- C7 (corrected): the canvas dimensions computed at construction satisfy
`grid_w = cell_columns*cell_width + gridlines_enabled*(cell_columns+1)*gridline_width`
(symmetrically for the height), the counter band is
`max(15, trunc(0.025*grid_h))` — truncation, not rounding — when the
counter is enabled and 0 otherwise, the total canvas size is
`(grid_w, grid_h + counter_band)`, and the allocated canvas has exactly
those pixel dimensions. -/
theorem c7_canvas_size (grid_x grid_y cell_width cell_height : Nat) (gridlines : Bool)
    (gridline_width : Nat) (gridline_color bg_color : Rgb) (frame_counter_text : Bool)
    (flip_vertical : Bool) :
    ((Grid.init grid_x grid_y cell_width cell_height gridlines gridline_width
        gridline_color bg_color frame_counter_text flip_vertical).image_width,
      (Grid.init grid_x grid_y cell_width cell_height gridlines gridline_width
        gridline_color bg_color frame_counter_text flip_vertical).image_height) =
      spec_canvas_size_trunc grid_x grid_y cell_width cell_height gridlines gridline_width
        frame_counter_text ∧
    (Grid.init grid_x grid_y cell_width cell_height gridlines gridline_width
        gridline_color bg_color frame_counter_text flip_vertical).image.pixels.length =
      (Grid.init grid_x grid_y cell_width cell_height gridlines gridline_width
        gridline_color bg_color frame_counter_text flip_vertical).image_height ∧
    ∀ row ∈ (Grid.init grid_x grid_y cell_width cell_height gridlines gridline_width
        gridline_color bg_color frame_counter_text flip_vertical).image.pixels,
      row.length = (Grid.init grid_x grid_y cell_width cell_height gridlines gridline_width
        gridline_color bg_color frame_counter_text flip_vertical).image_width := by
  refine ⟨?_, ?_, ?_⟩
  · cases gridlines <;> cases frame_counter_text <;>
      simp [Grid.init, Grid.image_width, Grid.image_height, Grid.grid_image_width,
        Grid.grid_image_height, Grid.frame_counter_text_height, spec_canvas_size_trunc,
        spec_grid_dim, spec_counter_band_trunc, Nat.add_mul]
  · unfold Grid.init Image.new
    simp [Grid.image_height, Grid.grid_image_height, Grid.frame_counter_text_height]
  · intro row hrow
    unfold Grid.init Image.new at hrow
    simp only at hrow
    rw [List.eq_of_mem_replicate hrow]
    simp [Grid.init, Grid.image_width, Grid.grid_image_width]

/-- Witness for C7 (amended): a 2×2 grid of 3×4 cells with gridlines of
width 1 and the counter enabled. -/
theorem c7_canvas_size_witness :
    ((Grid.init 2 2 3 4 true 1 { r := 0, g := 0, b := 0 } { r := 255, g := 255, b := 255 }
        true false).image_width,
      (Grid.init 2 2 3 4 true 1 { r := 0, g := 0, b := 0 } { r := 255, g := 255, b := 255 }
        true false).image_height) =
      spec_canvas_size_trunc 2 2 3 4 true 1 true ∧
    (Grid.init 2 2 3 4 true 1 { r := 0, g := 0, b := 0 } { r := 255, g := 255, b := 255 }
        true false).image.pixels.length =
      (Grid.init 2 2 3 4 true 1 { r := 0, g := 0, b := 0 } { r := 255, g := 255, b := 255 }
        true false).image_height ∧
    ∀ row ∈ (Grid.init 2 2 3 4 true 1 { r := 0, g := 0, b := 0 }
        { r := 255, g := 255, b := 255 } true false).image.pixels,
      row.length = (Grid.init 2 2 3 4 true 1 { r := 0, g := 0, b := 0 }
        { r := 255, g := 255, b := 255 } true false).image_width :=
  c7_canvas_size 2 2 3 4 true 1 { r := 0, g := 0, b := 0 } { r := 255, g := 255, b := 255 }
    true false

/-- C5 counterexample: `Animator.save_animation` with `duration = 0` does
NOT normalize the divisor — `int(holdresult / duration)` raises
ZeroDivisionError (modelled by `none`): the multi-visual hold-frame count
is not `holdresult` at `duration = 0`. -/
theorem c5_counterexample :
    wAnimator.save_animation [wGridOwnHold] 0 7 none = none ∧
    Animator.holdframeCount 7 0 ≠ some 7 := by
  exact ⟨rfl, by decide⟩

/-- C5 (corrected): for `duration > 0` both exports compute the hold-frame
count `floor(holdresult / duration)`; at `duration = 0` only
`Grid.save_animation` defensively normalizes the divisor to 1 (count =
`holdresult`), while `Animator.save_animation` divides unprotected and
raises ZeroDivisionError (modelled `none`). -/
theorem c5_holdframe_count (holdresult duration : Nat) :
    (0 < duration →
      Grid.holdframeCount holdresult duration = holdresult / duration ∧
      Animator.holdframeCount holdresult duration = some (holdresult / duration)) ∧
    (duration = 0 →
      Grid.holdframeCount holdresult duration = holdresult ∧
      Animator.holdframeCount holdresult duration = none) := by
  constructor
  · intro hD
    have hD0 : duration ≠ 0 := Nat.pos_iff_ne_zero.mp hD
    exact ⟨holdframeCount_pos _ _ hD0, by simp [Animator.holdframeCount, hD0]⟩
  · intro h
    subst h
    exact ⟨by simp [Grid.holdframeCount], by simp [Animator.holdframeCount]⟩

/-- Witness for C5: at `duration = 0` the single-visual count is the raw
hold duration and the multi-visual count raises; at `duration = 5`,
`holdresult = 42` both give `floor(42/5) = 8`. -/
theorem c5_holdframe_count_witness :
    (Grid.holdframeCount 7 0 = 7 ∧ Animator.holdframeCount 7 0 = none) ∧
    (Grid.holdframeCount 42 5 = 8 ∧ Animator.holdframeCount 42 5 = some 8) :=
  ⟨(c5_holdframe_count 7 0).2 rfl, (c5_holdframe_count 42 5).1 (by decide)⟩

/-- C10 (confirmed): `Grid.save_animation` persistently appends its hold
frames to the frame buffer: after an export with buffer length `L` the
buffer has length `L + floor(holdresult/duration)`, and a second export on
the same grid operates on the enlarged buffer and accumulates a further
`floor(holdresult/duration)` hold frames. -/
theorem c10_export_accumulates (g : Grid) (duration : Nat) (hD : 0 < duration)
    (hne : 1 ≤ g.frames.length + g.holdresult / duration) :
    (g.save_animation duration).map (fun p => p.1.frames.length) =
      some (g.frames.length + g.holdresult / duration) ∧
    ((g.save_animation duration).bind fun p => p.1.save_animation duration).map
        (fun p => p.1.frames.length) =
      some (g.frames.length + 2 * (g.holdresult / duration)) := by
  have hD0 : duration ≠ 0 := Nat.pos_iff_ne_zero.mp hD
  have hk := holdframeCount_pos g.holdresult duration hD0
  have hsome := grid_save_animation_some g duration (by rw [hk]; omega)
  rw [hk] at hsome
  rw [hsome]
  constructor
  · simp only [Option.map_some']
    rw [save_frame_iterate_length]
  · simp only [Option.some_bind]
    have hk1 : Grid.holdframeCount (Grid.save_frame^[g.holdresult / duration] g).holdresult
        duration = g.holdresult / duration := by
      rw [save_frame_iterate_holdresult, hk]
    have hsome1 := grid_save_animation_some (Grid.save_frame^[g.holdresult / duration] g)
      duration (by rw [hk1, save_frame_iterate_length]; omega)
    rw [hk1] at hsome1
    rw [hsome1]
    simp only [Option.map_some']
    rw [save_frame_iterate_length, save_frame_iterate_length, Nat.two_mul, ← Nat.add_assoc]

/-- Witness for C10: a one-frame grid with `holdresult = 200` exported at
`duration = 100` ends with 3 buffered frames, and 5 after a second
export. -/
theorem c10_export_accumulates_witness :
    0 < 100 ∧ 1 ≤ wGridHold.frames.length + wGridHold.holdresult / 100 ∧
    ((wGridHold.save_animation 100).map (fun p => p.1.frames.length) =
        some (wGridHold.frames.length + wGridHold.holdresult / 100) ∧
      ((wGridHold.save_animation 100).bind fun p => p.1.save_animation 100).map
          (fun p => p.1.frames.length) =
        some (wGridHold.frames.length + 2 * (wGridHold.holdresult / 100))) :=
  ⟨by decide, by decide, c10_export_accumulates wGridHold 100 (by decide) (by decide)⟩

/-- C2 (confirmed): a single-visual export with buffer length `L ≥ 1`,
hold duration `H` and frame duration `D > 0` produces exactly
`L + floor(H/D)` frames — whether or not the counter is enabled — and,
when the counter is enabled, the `i`-th frame (1-indexed) carries the
counter text `"Frame:  i / L"` for `i ≤ L` while every hold frame carries
`"Frame:  L / L"` — i.e. the displayed position is `min i L`. -/
theorem c2_single_export (g : Grid) (duration : Nat)
    (hL : 1 ≤ g.frames.length) (hD : 0 < duration) :
    (g.save_animation duration).map (fun p => p.2.length) =
      some (g.frames.length + g.holdresult / duration) ∧
    (g._frame_counter_text = true →
      ∀ i, i < g.frames.length + g.holdresult / duration →
        ((((g.save_animation duration).map Prod.snd).getD []).getD i
            dummyImage).texts.getLast? =
          some (((3 : Int), (g.grid_image_height : Int) + 3),
            "Frame: " ++ " " ++ toString (min (i + 1) g.frames.length) ++ " / " ++
              toString g.frames.length,
            g.frame_counter_text_color)) := by
  have hD0 : duration ≠ 0 := Nat.pos_iff_ne_zero.mp hD
  have hk := holdframeCount_pos g.holdresult duration hD0
  have hsome := grid_save_animation_some g duration (by rw [hk]; omega)
  rw [hk] at hsome
  rw [hsome]
  have hfl : (Grid.save_frame^[g.holdresult / duration] g).frames.length =
      g.frames.length + g.holdresult / duration := save_frame_iterate_length g _
  constructor
  · simp only [Option.map_some']
    unfold Grid._frames_gen
    rw [framesGenAux_length, hfl]
  · intro hc i hi
    simp only [Option.map_some', Option.getD_some]
    unfold Grid._frames_gen
    rw [framesGenAux_getD _ _ _ _ 1 i (by rw [hfl]; omega)]
    unfold Grid.processFrame
    rw [show (Grid.save_frame^[g.holdresult / duration] g)._frame_counter_text = true from
      (save_frame_iterate_flag g _).trans hc]
    simp only [if_true]
    unfold Grid._draw_frame_counter_text Image.drawText
    simp only [List.getLast?_concat]
    rw [hfl, save_frame_iterate_height, save_frame_iterate_color, Nat.add_sub_cancel]
    have hmin : (if 1 + i ≤ g.frames.length then 1 + i else g.frames.length) =
        min (i + 1) g.frames.length := by
      split <;> omega
    rw [hmin]

/-- Witness for C2: `wGridHold` (one buffered frame, `holdresult = 200`,
counter enabled) exported at `duration = 100` yields 3 frames, each
annotated `1 / 1`. -/
theorem c2_single_export_witness :
    1 ≤ wGridHold.frames.length ∧ (0 : Nat) < 100 ∧
    ((wGridHold.save_animation 100).map (fun p => p.2.length) =
        some (wGridHold.frames.length + wGridHold.holdresult / 100) ∧
      (wGridHold._frame_counter_text = true →
        ∀ i, i < wGridHold.frames.length + wGridHold.holdresult / 100 →
          ((((wGridHold.save_animation 100).map Prod.snd).getD []).getD i
              dummyImage).texts.getLast? =
            some (((3 : Int), (wGridHold.grid_image_height : Int) + 3),
              "Frame: " ++ " " ++ toString (min (i + 1) wGridHold.frames.length) ++ " / " ++
                toString wGridHold.frames.length,
              wGridHold.frame_counter_text_color))) :=
  ⟨by decide, by decide, c2_single_export wGridHold 100 (by decide) (by decide)⟩

/-- C8 (confirmed): the hold frames appended during a single-visual export
each equal the snapshot `_create_bytesio_object` takes of the visual's live
canvas at export time (after the `_draw_image` gridline pass that
`save_frame` always performs on the live canvas) — a function of the live
canvas only, not a copy of the last buffered frame, so mutations after the
last snapshot are reflected in every hold frame. -/
theorem c8_hold_frames_snapshot_live (g : Grid) (duration : Nat)
    (hne : 1 ≤ g.frames.length + Grid.holdframeCount g.holdresult duration) :
    ∀ i, g.frames.length ≤ i →
      i < g.frames.length + Grid.holdframeCount g.holdresult duration →
      (g.save_animation duration).map (fun p => p.1.frames.getD i dummyImage) =
        some ((g._draw_image)._create_bytesio_object (g._draw_image).image) := by
  intro i hlo hhi
  rw [grid_save_animation_some g duration (by omega)]
  simp only [Option.map_some']
  rw [save_frame_iterate_frames,
    List.getD_append_right _ _ _ _ hlo,
    replicate_getD _ _ (by omega)]
  rfl

/-- Witness for C8: in the export of `wGridHold` (one buffered frame,
two hold frames) the buffered frame at index 1 is the encoded live
canvas. -/
theorem c8_hold_frames_snapshot_live_witness :
    1 ≤ wGridHold.frames.length + Grid.holdframeCount wGridHold.holdresult 100 ∧
    wGridHold.frames.length ≤ 1 ∧
    1 < wGridHold.frames.length + Grid.holdframeCount wGridHold.holdresult 100 ∧
    (wGridHold.save_animation 100).map (fun p => p.1.frames.getD 1 dummyImage) =
      some ((wGridHold._draw_image)._create_bytesio_object (wGridHold._draw_image).image) :=
  ⟨by decide, by decide, by decide,
    c8_hold_frames_snapshot_live wGridHold 100 (by decide) 1 (by decide) (by decide)⟩

/-- C4 counterexample: with a supplied global hold duration of 50 ms and a
frame duration of 100 ms (`global_hold_duration_ms > 0`), the computed
global hold-frame count is `int(50/100) = 0`, and the code then honors the
visual's own 100 ms hold duration — the buffer of the single visual grows
from 1 to 2 frames — instead of ignoring it as the claim states. -/
theorem c4_counterexample :
    (wAnimator.save_animation [wGridOwnHold] 100 50 none).map
        (fun p => p.1.map fun v => v.frames.length) = some [2] ∧
    wGridOwnHold.frames.length = 1 := by
  constructor
  · decide
  · decide

/-- C4 (corrected): the hold-policy branch of the multi-visual export is
decided by the computed global hold-frame count
`floor(global_hold_duration_ms / frame_duration_ms)`, not by
`global_hold_duration_ms > 0`: when the count is positive, hold expansion
is applied only to the last visual in the sequence and every per-visual
hold duration is ignored; when the count is zero (including
`0 < global_hold_duration_ms < frame_duration_ms`), each visual's own
non-zero hold duration is expanded independently in place. -/
theorem c4_hold_policy (a : Animator) (visuals : List Grid) (duration holdresult : Nat)
    (r : Option (Nat × Nat)) (hD : 0 < duration)
    (hne : 1 ≤ (visuals.map fun v => v.frames.length).sum) :
    (0 < holdresult / duration →
      (a.save_animation visuals duration holdresult r).map Prod.fst =
        some (updateLast (Grid.save_frame^[holdresult / duration]) visuals)) ∧
    (holdresult / duration = 0 →
      (a.save_animation visuals duration holdresult r).map Prod.fst =
        some (Animator.expandPerVisual duration visuals)) := by
  have hD0 : duration ≠ 0 := Nat.pos_iff_ne_zero.mp hD
  constructor
  · intro hpos
    have hvs : Animator.expandVisuals duration (holdresult / duration) visuals =
        updateLast (Grid.save_frame^[holdresult / duration]) visuals := by
      unfold Animator.expandVisuals
      rw [if_pos (Nat.pos_iff_ne_zero.mp hpos)]
    have hvne : visuals ≠ [] := by
      intro h
      rw [h] at hne
      simp at hne
    have hsum : ((Animator.expandVisuals duration (holdresult / duration) visuals).map
        fun v => v.frames.length).sum ≠ 0 := by
      rw [hvs, updateLast_sum _ _ hvne]
      omega
    rw [animator_save_animation_some a visuals duration holdresult r hD0 hsum]
    simp only [Option.map_some']
    rw [hvs]
  · intro hzero
    have hvs : Animator.expandVisuals duration (holdresult / duration) visuals =
        Animator.expandPerVisual duration visuals := by
      unfold Animator.expandVisuals
      rw [hzero]
      simp
    have hsum : ((Animator.expandVisuals duration (holdresult / duration) visuals).map
        fun v => v.frames.length).sum ≠ 0 := by
      rw [hvs]
      have := expandPerVisual_sum_le duration visuals
      omega
    rw [animator_save_animation_some a visuals duration holdresult r hD0 hsum]
    simp only [Option.map_some']
    rw [hvs]

/-- Witness for C4: one visual with its own 100 ms hold, global hold
200 ms, duration 100 ms: the global count 2 is applied to the (single,
hence last) visual. -/
theorem c4_hold_policy_witness :
    (0 : Nat) < 100 ∧ 1 ≤ ([wGridOwnHold].map fun v => v.frames.length).sum ∧
    ((0 < 200 / 100 →
        (wAnimator.save_animation [wGridOwnHold] 100 200 none).map Prod.fst =
          some (updateLast (Grid.save_frame^[200 / 100]) [wGridOwnHold])) ∧
      (200 / 100 = 0 →
        (wAnimator.save_animation [wGridOwnHold] 100 200 none).map Prod.fst =
          some (Animator.expandPerVisual 100 [wGridOwnHold]))) :=
  ⟨by decide, by decide,
    c4_hold_policy wAnimator [wGridOwnHold] 100 200 none (by decide) (by decide)⟩

/-- C9 counterexample: a multi-visual export over one visual whose own
hold duration is 100 ms (duration 100 ms, no global hold) appends a hold
frame to that visual's FrameBuffer: the visuals coming out of the export
differ from the visuals that went in, so export does not leave the
Visuals unchanged. -/
theorem c9_counterexample :
    (wAnimator.save_animation [wGridOwnHold] 100 0 none).map Prod.fst ≠
      some [wGridOwnHold] := by
  decide

/-- C9 (corrected): the multi-visual export only reads from the Visuals —
leaving every live canvas and FrameBuffer unchanged — provided no hold
frames are due: the global hold-frame count is zero and every visual's own
hold-frame count `floor(holdresult/duration)` is zero.  (Otherwise the
hold expansion calls `save_frame` on the affected visuals, appending hold
frames to their buffers, as the counterexample shows.) -/
theorem c9_export_reads_only (a : Animator) (visuals : List Grid) (duration holdresult : Nat)
    (r : Option (Nat × Nat)) (hD : 0 < duration) (hG : holdresult / duration = 0)
    (hv : ∀ v ∈ visuals, v.holdresult / duration = 0)
    (hne : 1 ≤ (visuals.map fun v => v.frames.length).sum) :
    (a.save_animation visuals duration holdresult r).map Prod.fst = some visuals := by
  have hD0 : duration ≠ 0 := Nat.pos_iff_ne_zero.mp hD
  have hvs : Animator.expandVisuals duration (holdresult / duration) visuals = visuals := by
    unfold Animator.expandVisuals
    rw [hG]
    simp only [ne_eq, not_true_eq_false, if_false]
    exact expandPerVisual_eq_self duration visuals hv
  have hsum : ((Animator.expandVisuals duration (holdresult / duration) visuals).map
      fun v => v.frames.length).sum ≠ 0 := by
    rw [hvs]
    omega
  rw [animator_save_animation_some a visuals duration holdresult r hD0 hsum]
  simp only [Option.map_some']
  rw [hvs]

/-- Witness for C9: exporting `[wGrid3]` (no holds anywhere) at duration
100 returns the visuals untouched. -/
theorem c9_export_reads_only_witness :
    (0 : Nat) < 100 ∧ (50 : Nat) / 100 = 0 ∧ (∀ v ∈ [wGrid3], v.holdresult / 100 = 0) ∧
    1 ≤ ([wGrid3].map fun v => v.frames.length).sum ∧
    (wAnimator.save_animation [wGrid3] 100 50 none).map Prod.fst = some [wGrid3] :=
  ⟨by decide, by decide, by decide, by decide,
    c9_export_reads_only wAnimator [wGrid3] 100 50 none (by decide) (by decide) (by decide)
      (by decide)⟩

/-- C3 (confirmed): a multi-visual export with no global hold emits frames
in visual-list order and, within each visual, in buffer order (the `i`-th
emitted frame is the `i`-th frame of the concatenation of the visuals'
buffers), and one running counter numbers them globally: with all counters
enabled, the `i`-th emitted frame (0-indexed) is annotated
`"Frame:  (i+1) / total"` with no reset at visual boundaries — in
particular buffer lengths [3, 2] give the sequence 1, 2, 3, 4, 5. -/
theorem c3_global_numbering (a : Animator) (visuals : List Grid) (duration : Nat)
    (hD : 0 < duration) (hc : ∀ v ∈ visuals, v._frame_counter_text = true)
    (hne : 1 ≤ (visuals.map fun v => v.frames.length).sum) :
    (a.save_animation visuals duration 0 none).map Prod.fst =
      some (Animator.expandPerVisual duration visuals) ∧
    (((a.save_animation visuals duration 0 none).map Prod.snd).getD []).length =
      ((Animator.expandPerVisual duration visuals).map Grid.frames).flatten.length ∧
    ∀ i, i < ((Animator.expandPerVisual duration visuals).map Grid.frames).flatten.length →
      ((((a.save_animation visuals duration 0 none).map Prod.snd).getD []).getD i
          dummyImage).pixels =
        (((Animator.expandPerVisual duration visuals).map Grid.frames).flatten.getD i
          dummyImage).pixels ∧
      ∃ p c,
        ((((a.save_animation visuals duration 0 none).map Prod.snd).getD []).getD i
            dummyImage).texts.getLast? =
          some (p,
            "Frame: " ++ " " ++ toString (i + 1) ++ " / " ++
              toString (((Animator.expandPerVisual duration visuals).map
                Grid.frames).flatten.length),
            c) := by
  have hD0 : duration ≠ 0 := Nat.pos_iff_ne_zero.mp hD
  have h0 : (0 : Nat) / duration = 0 := Nat.zero_div duration
  have hvs : Animator.expandVisuals duration (0 / duration) visuals =
      Animator.expandPerVisual duration visuals := by
    rw [h0]
    unfold Animator.expandVisuals
    simp
  have hsum : ((Animator.expandVisuals duration (0 / duration) visuals).map
      fun v => v.frames.length).sum ≠ 0 := by
    rw [hvs]
    have := expandPerVisual_sum_le duration visuals
    omega
  have hsome := animator_save_animation_some a visuals duration 0 none hD0 hsum
  rw [hvs, h0] at hsome
  rw [hsome]
  have hflag : ∀ v ∈ Animator.expandPerVisual duration visuals,
      v._frame_counter_text = true := expandPerVisual_flag duration visuals hc
  have hjoinlen : (((Animator.expandPerVisual duration visuals).map
      Grid.frames).flatten).length =
        ((Animator.expandPerVisual duration visuals).map fun v => v.frames.length).sum := by
    rw [List.length_flatten, List.map_map]
    rfl
  refine ⟨by simp, ?_, ?_⟩
  · simp only [Option.map_some', Option.getD_some]
    rw [emitAll_length, hjoinlen]
  · intro i hi
    have hi' : i < ((Animator.expandPerVisual duration visuals).map
        fun v => v.frames.length).sum := by
      rw [hjoinlen] at hi
      exact hi
    simp only [Option.map_some', Option.getD_some]
    obtain ⟨v, hvmem, hval⟩ := emitAll_getD none 0
      ((Animator.expandPerVisual duration visuals).map fun v => v.frames.length).sum
      (Animator.expandPerVisual duration visuals) 1 i hi'
    have heval : Animator.processFrame none v 0
        ((Animator.expandPerVisual duration visuals).map fun v => v.frames.length).sum (1 + i)
        ((((Animator.expandPerVisual duration visuals).map Grid.frames).flatten).getD i
          dummyImage) =
        Image.drawText
          (decodePNG ((((Animator.expandPerVisual duration visuals).map
            Grid.frames).flatten).getD i dummyImage))
          ((3 : Int), (v.grid_image_height : Int) + 3)
          ("Frame: " ++ " " ++ toString (i + 1) ++ " / " ++
            toString (((Animator.expandPerVisual duration visuals).map
              fun v => v.frames.length).sum))
          v.frame_counter_text_color := by
      unfold Animator.processFrame Grid.processFrame
      rw [hflag v hvmem]
      simp only [if_true]
      rw [Nat.sub_zero, if_pos (by omega :
        1 + i ≤ ((Animator.expandPerVisual duration visuals).map
          fun v => v.frames.length).sum), Nat.add_comm 1 i]
      rfl
    rw [hval, heval]
    constructor
    · rfl
    · rw [hjoinlen]
      refine ⟨((3 : Int), (v.grid_image_height : Int) + 3), v.frame_counter_text_color, ?_⟩
      unfold Image.drawText
      rw [List.getLast?_concat]

/-- Witness for C3: two visuals with buffer lengths [3, 2] and no global
hold produce five frames numbered 1–5 globally. -/
theorem c3_global_numbering_witness :
    (0 : Nat) < 100 ∧ (∀ v ∈ [wGrid3, wGrid2], v._frame_counter_text = true) ∧
    1 ≤ ([wGrid3, wGrid2].map fun v => v.frames.length).sum ∧
    ((wAnimator.save_animation [wGrid3, wGrid2] 100 0 none).map Prod.fst =
        some (Animator.expandPerVisual 100 [wGrid3, wGrid2]) ∧
      (((wAnimator.save_animation [wGrid3, wGrid2] 100 0 none).map Prod.snd).getD []).length =
        ((Animator.expandPerVisual 100 [wGrid3, wGrid2]).map Grid.frames).flatten.length ∧
      ∀ i, i < ((Animator.expandPerVisual 100 [wGrid3, wGrid2]).map
          Grid.frames).flatten.length →
        ((((wAnimator.save_animation [wGrid3, wGrid2] 100 0 none).map Prod.snd).getD
            []).getD i dummyImage).pixels =
          (((Animator.expandPerVisual 100 [wGrid3, wGrid2]).map Grid.frames).flatten.getD i
            dummyImage).pixels ∧
        ∃ p c,
          ((((wAnimator.save_animation [wGrid3, wGrid2] 100 0 none).map Prod.snd).getD
              []).getD i dummyImage).texts.getLast? =
            some (p,
              "Frame: " ++ " " ++ toString (i + 1) ++ " / " ++
                toString (((Animator.expandPerVisual 100 [wGrid3, wGrid2]).map
                  Grid.frames).flatten.length),
              c)) :=
  ⟨by decide, by decide, by decide,
    c3_global_numbering wAnimator [wGrid3, wGrid2] 100 (by decide) (by decide) (by decide)⟩

end Visualaid
